import Mathlib

/-!
Verification of claimhawk/imgopt-rs (src/main.rs).

The development shallowly embeds the two core pieces of the program:

* the dimension-clamping planner inlined in `process_image`
  (src/main.rs lines 269-286), modelled by `Imgopt.plan`;
* the event-classification logic of the `run_app` input loop
  (src/main.rs lines 64-136), modelled by `Imgopt.step`;
* the early-return error handling of `process_image`
  (src/main.rs lines 226-254), modelled by `Imgopt.process_image`.

Machine integers: the Rust code computes on `u32`.  We model `u32` values
as natural numbers below `2^32` and `u32` multiplication as multiplication
followed by reduction modulo `2^32` (release-mode wrapping semantics);
`u32` division of such values coincides with natural-number division.
-/

namespace Imgopt

/-- The modulus of `u32` arithmetic, `2^32`. -/
def U32 : Nat := 2 ^ 32

/-- Constant `MIN_DIMENSION: u32 = 480` (main.rs line 16). -/
def MIN_DIMENSION : Nat := 480

/-- Constant `MAX_DIMENSION: u32 = 720` (main.rs line 17). -/
def MAX_DIMENSION : Nat := 720

/-- Multiplication of `u32` values: wraps modulo `2^32`. -/
def mulU32 (a b : Nat) : Nat := a * b % U32

/-- The `target_dim` computation of `process_image` (main.rs lines 269-276):
`if max_dim > MAX_DIMENSION { MAX_DIMENSION } else if max_dim < MIN_DIMENSION
{ MIN_DIMENSION } else { max_dim }` where `max_dim = width.max(height)`. -/
def target_dim (width height : Nat) : Nat :=
  if Nat.max width height > MAX_DIMENSION then MAX_DIMENSION
  else if Nat.max width height < MIN_DIMENSION then MIN_DIMENSION
  else Nat.max width height

/-- The dimension planner of `process_image` (main.rs lines 278-286):

`let (new_width, new_height) = if target_dim != max_dim {
   if width > height { (target_dim, (height * target_dim) / width) }
   else { ((width * target_dim) / height, target_dim) }
 } else { (width, height) };`

All arithmetic is `u32`; the products wrap modulo `2^32`. -/
def plan (width height : Nat) : Nat × Nat :=
  if target_dim width height ≠ Nat.max width height then
    if width > height then
      (target_dim width height, mulU32 height (target_dim width height) / width)
    else
      (mulU32 width (target_dim width height) / height, target_dim width height)
  else
    (width, height)

/-- When `MIN_DIMENSION ≤ max(w,h) ≤ MAX_DIMENSION` the `target_dim`
if-chain returns `max(w,h)` itself. -/
lemma target_dim_eq_max {w h : Nat} (h1 : MIN_DIMENSION ≤ Nat.max w h)
    (h2 : Nat.max w h ≤ MAX_DIMENSION) : target_dim w h = Nat.max w h := by
  unfold target_dim
  simp only [MIN_DIMENSION, MAX_DIMENSION] at *
  rw [if_neg (by omega), if_neg (by omega)]

/-- When the longer side is already in range the planner is the identity
(no positivity needed). -/
lemma plan_eq_id_of_inrange {w h : Nat} (h1 : MIN_DIMENSION ≤ Nat.max w h)
    (h2 : Nat.max w h ≤ MAX_DIMENSION) : plan w h = (w, h) := by
  unfold plan
  rw [target_dim_eq_max h1 h2, if_neg (by simp)]

/-- When the longer side exceeds `MAX_DIMENSION` the target is `720`. -/
lemma target_dim_of_gt {w h : Nat} (hgt : 720 < Nat.max w h) :
    target_dim w h = 720 := by
  unfold target_dim
  simp only [MIN_DIMENSION, MAX_DIMENSION]
  rw [if_pos (by omega)]

/-- When the longer side is below `MIN_DIMENSION` the target is `480`. -/
lemma target_dim_of_lt {w h : Nat} (hlt : Nat.max w h < 480) :
    target_dim w h = 480 := by
  unfold target_dim
  simp only [MIN_DIMENSION, MAX_DIMENSION]
  rw [if_neg (by omega), if_pos (by omega)]

/-- The target dimension never exceeds `720`. -/
lemma target_dim_le (w h : Nat) : target_dim w h ≤ 720 := by
  unfold target_dim
  simp only [MIN_DIMENSION, MAX_DIMENSION]
  split_ifs <;> omega

/-- A product that fits below `2^32` does not wrap. -/
lemma mulU32_no_wrap {a b : Nat} (h : a * b < U32) : mulU32 a b = a * b :=
  Nat.mod_eq_of_lt h

/-- The scaled shorter side never exceeds the target dimension, wrap or not. -/
lemma ns_le (short long t : Nat) (hl : 0 < long) (hsl : short ≤ long) :
    mulU32 short t / long ≤ t :=
  calc mulU32 short t / long ≤ short * t / long :=
        Nat.div_le_div_right (Nat.mod_le _ _)
    _ ≤ long * t / long := Nat.div_le_div_right (Nat.mul_le_mul_right t hsl)
    _ = t := Nat.mul_div_cancel_left t hl

/-- C2: for positive `(w,h)` with `480 ≤ max(w,h) ≤ 720` the planner
returns `(w,h)` unchanged. -/
theorem plan_clamp_identity (w h : Nat) (hw : 0 < w) (hh : 0 < h)
    (h1 : 480 ≤ Nat.max w h) (h2 : Nat.max w h ≤ 720) : plan w h = (w, h) :=
  plan_eq_id_of_inrange h1 h2

/-- Witness for C2 at `(500, 300)`. -/
theorem plan_clamp_identity_witness : plan 500 300 = (500, 300) :=
  plan_clamp_identity 500 300 (by decide) (by decide) (by decide) (by decide)

/-- The target dimension exactly as the spec words step 3: `MAX` when the
longer side exceeds `MAX`, else `MIN`. -/
def specTarget (w h : Nat) : Nat :=
  if 720 < Nat.max w h then 720 else 480

/-- The scaling formula exactly as C1 words steps 3-4 of the spec, with
unbounded integer arithmetic: `(target, floor(h*target/w))` when
`width ≥ height`, else `(floor(w*target/h), target)`. -/
def planSpecScaled (w h : Nat) : Nat × Nat :=
  if h ≤ w then
    (specTarget w h, h * specTarget w h / w)
  else
    (w * specTarget w h / h, specTarget w h)

/-- Counterexample to C1 as stated: at `(10000000, 10000000)` the longer
side is outside `[480, 720]`, yet the `u32` product `10000000 * 720`
wraps modulo `2^32`, so the code returns `(290, 720)` instead of the
claimed `(720, 720)`. -/
theorem plan_scale_formula_cex :
    720 < Nat.max 10000000 10000000 ∧
      plan 10000000 10000000 ≠ planSpecScaled 10000000 10000000 := by
  constructor
  · decide
  · decide

/-- C1 amended: the claimed formula holds for positive `(w,h)` outside
`[480,720]` provided both sides are at most `5965232` (so no `u32`
product wraps). -/
theorem plan_scale_formula (w h : Nat) (hw : 0 < w) (hh : 0 < h)
    (hwB : w ≤ 5965232) (hhB : h ≤ 5965232)
    (hout : Nat.max w h < 480 ∨ 720 < Nat.max w h) :
    plan w h = planSpecScaled w h := by
  have htle : target_dim w h ≤ 720 := target_dim_le w h
  have hmul : ∀ x : Nat, x ≤ 5965232 →
      mulU32 x (target_dim w h) = x * target_dim w h := by
    intro x hx
    exact mulU32_no_wrap
      (lt_of_le_of_lt (Nat.mul_le_mul hx htle) (by norm_num [U32]))
  have htval : target_dim w h = specTarget w h := by
    unfold specTarget
    rcases hout with h1 | h1
    · rw [target_dim_of_lt h1, if_neg (by omega)]
    · rw [target_dim_of_gt h1, if_pos h1]
  have hne : target_dim w h ≠ Nat.max w h := by
    rcases hout with h1 | h1
    · have := target_dim_of_lt h1; omega
    · have := target_dim_of_gt h1; omega
  unfold plan planSpecScaled
  rw [if_pos hne, ← htval]
  rcases Nat.lt_trichotomy h w with hlt | heq | hgt
  · rw [if_pos hlt, if_pos (le_of_lt hlt), hmul h hhB]
  · subst heq
    rw [if_neg (lt_irrefl h), if_pos (le_refl h), hmul h hhB,
      Nat.mul_div_cancel_left _ hh]
  · rw [if_neg (by omega), if_neg (by omega), hmul w hwB]

/-- Witness for the amended C1 at `(1000, 500)`. -/
theorem plan_scale_formula_witness : plan 1000 500 = planSpecScaled 1000 500 :=
  plan_scale_formula 1000 500 (by decide) (by decide) (by decide) (by decide)
    (by decide)

/-- The planner computed with unbounded (mathematical) integers: identical
to `plan` except that the products do not wrap modulo `2^32`. -/
def planMath (width height : Nat) : Nat × Nat :=
  if target_dim width height ≠ Nat.max width height then
    if width > height then
      (target_dim width height, height * target_dim width height / width)
    else
      (width * target_dim width height / height, target_dim width height)
  else
    (width, height)

/-- Counterexample to C6 as stated: at `(10000000, 6000000)` the planner is
in the scaling branch, yet the `u32` product `6000000 * 720 = 4320000000`
wraps modulo `2^32`, giving shorter side `2` where unbounded arithmetic
gives `432`. -/
theorem plan_no_wrap_cex :
    plan 10000000 6000000 ≠ planMath 10000000 6000000 := by decide

/-- C6 amended: the `u32` computation agrees with unbounded integer
arithmetic whenever both sides are at most `5965232` (then every product
with the target dimension stays below `2^32`). -/
theorem plan_no_wrap (w h : Nat) (hwB : w ≤ 5965232) (hhB : h ≤ 5965232) :
    plan w h = planMath w h := by
  have htle : target_dim w h ≤ 720 := target_dim_le w h
  have hmulh : mulU32 h (target_dim w h) = h * target_dim w h :=
    mulU32_no_wrap
      (lt_of_le_of_lt (Nat.mul_le_mul hhB htle) (by norm_num [U32]))
  have hmulw : mulU32 w (target_dim w h) = w * target_dim w h :=
    mulU32_no_wrap
      (lt_of_le_of_lt (Nat.mul_le_mul hwB htle) (by norm_num [U32]))
  unfold plan planMath
  rw [hmulh, hmulw]

/-- Witness for the amended C6 at `(1000, 500)`. -/
theorem plan_no_wrap_witness : plan 1000 500 = planMath 1000 500 :=
  plan_no_wrap 1000 500 (by decide) (by decide)

/-- Counterexample to C5 as stated: `(721, 1)` is positive, but the planner
computes `(720, 720/721) = (720, 0)` — the shorter output side is zero,
violating the `> 0` shape of ImageDimensions. -/
theorem plan_pos_cex : plan 721 1 = (720, 0) := by decide

/-- C5 amended: both output components are positive provided additionally
the aspect ratio is bounded (`max(w,h) ≤ 720 * min(w,h)`) and no `u32`
product wraps (`w, h ≤ 5965232`). -/
theorem plan_pos (w h : Nat) (hw : 0 < w) (hh : 0 < h)
    (hwB : w ≤ 5965232) (hhB : h ≤ 5965232)
    (hasp : Nat.max w h ≤ 720 * Nat.min w h) :
    0 < (plan w h).1 ∧ 0 < (plan w h).2 := by
  have htle : target_dim w h ≤ 720 := target_dim_le w h
  have hmul : ∀ x : Nat, x ≤ 5965232 →
      mulU32 x (target_dim w h) = x * target_dim w h := by
    intro x hx
    exact mulU32_no_wrap
      (lt_of_le_of_lt (Nat.mul_le_mul hx htle) (by norm_num [U32]))
  by_cases h720 : 720 < Nat.max w h
  · have ht := target_dim_of_gt h720
    have hne : target_dim w h ≠ Nat.max w h := by omega
    by_cases hgt : h < w
    · have hmaxw : Nat.max w h = w := Nat.max_eq_left (le_of_lt hgt)
      have hminh : Nat.min w h = h := Nat.min_eq_right (le_of_lt hgt)
      have hplan : plan w h = (720, h * 720 / w) := by
        unfold plan
        rw [if_pos hne, if_pos hgt, hmul h hhB, ht]
      rw [hplan]
      refine ⟨by norm_num, Nat.div_pos ?_ hw⟩
      omega
    · have hwle : w ≤ h := le_of_not_lt hgt
      have hmaxh : Nat.max w h = h := Nat.max_eq_right hwle
      have hminw : Nat.min w h = w := Nat.min_eq_left hwle
      have hplan : plan w h = (w * 720 / h, 720) := by
        unfold plan
        rw [if_pos hne, if_neg hgt, hmul w hwB, ht]
      rw [hplan]
      refine ⟨Nat.div_pos ?_ hh, by norm_num⟩
      omega
  · by_cases h480 : Nat.max w h < 480
    · have ht := target_dim_of_lt h480
      have hne : target_dim w h ≠ Nat.max w h := by omega
      by_cases hgt : h < w
      · have hplan : plan w h = (480, h * 480 / w) := by
          unfold plan
          rw [if_pos hne, if_pos hgt, hmul h hhB, ht]
        rw [hplan]
        refine ⟨by norm_num, Nat.div_pos ?_ hw⟩
        have hwmax : w ≤ Nat.max w h := Nat.le_max_left w h
        omega
      · have hplan : plan w h = (w * 480 / h, 480) := by
          unfold plan
          rw [if_pos hne, if_neg hgt, hmul w hwB, ht]
        rw [hplan]
        refine ⟨Nat.div_pos ?_ hh, by norm_num⟩
        have hhmax : h ≤ Nat.max w h := Nat.le_max_right w h
        omega
    · have hid : plan w h = (w, h) :=
        plan_eq_id_of_inrange (by simp only [MIN_DIMENSION]; omega)
          (by simp only [MAX_DIMENSION]; omega)
      rw [hid]
      exact ⟨hw, hh⟩

/-- Witness for the amended C5 at `(1000, 500)`. -/
theorem plan_pos_witness : 0 < (plan 1000 500).1 ∧ 0 < (plan 1000 500).2 :=
  plan_pos 1000 500 (by decide) (by decide) (by decide) (by decide) (by decide)

/-- C7: re-planning the planner's output is a no-op, for every positive
`u32` input — the scaled output's longer side always lands in
`[480, 720]`, even when a product wraps. -/
theorem plan_idempotent (w h : Nat) (hw : 0 < w) (hh : 0 < h)
    (hw32 : w < U32) (hh32 : h < U32) :
    plan (plan w h).1 (plan w h).2 = plan w h := by
  by_cases h720 : 720 < Nat.max w h
  · have ht := target_dim_of_gt h720
    have hne : target_dim w h ≠ Nat.max w h := by omega
    by_cases hgt : h < w
    · have hplan : plan w h = (720, mulU32 h 720 / w) := by
        unfold plan
        rw [if_pos hne, if_pos hgt, ht]
      have hns : mulU32 h 720 / w ≤ 720 :=
        ns_le h w 720 (by omega) (le_of_lt hgt)
      have hmx : Nat.max 720 (mulU32 h 720 / w) = 720 := Nat.max_eq_left hns
      rw [hplan]
      exact plan_eq_id_of_inrange
        (by rw [hmx]; norm_num [MIN_DIMENSION])
        (by rw [hmx]; norm_num [MAX_DIMENSION])
    · have hwle : w ≤ h := le_of_not_lt hgt
      have hplan : plan w h = (mulU32 w 720 / h, 720) := by
        unfold plan
        rw [if_pos hne, if_neg hgt, ht]
      have hns : mulU32 w 720 / h ≤ 720 := ns_le w h 720 (by omega) hwle
      have hmx : Nat.max (mulU32 w 720 / h) 720 = 720 := Nat.max_eq_right hns
      rw [hplan]
      exact plan_eq_id_of_inrange
        (by rw [hmx]; norm_num [MIN_DIMENSION])
        (by rw [hmx]; norm_num [MAX_DIMENSION])
  · by_cases h480 : Nat.max w h < 480
    · have ht := target_dim_of_lt h480
      have hne : target_dim w h ≠ Nat.max w h := by omega
      by_cases hgt : h < w
      · have hplan : plan w h = (480, mulU32 h 480 / w) := by
          unfold plan
          rw [if_pos hne, if_pos hgt, ht]
        have hns : mulU32 h 480 / w ≤ 480 :=
          ns_le h w 480 (by omega) (le_of_lt hgt)
        have hmx : Nat.max 480 (mulU32 h 480 / w) = 480 := Nat.max_eq_left hns
        rw [hplan]
        exact plan_eq_id_of_inrange
          (by rw [hmx]; norm_num [MIN_DIMENSION])
          (by rw [hmx]; norm_num [MAX_DIMENSION])
      · have hwle : w ≤ h := le_of_not_lt hgt
        have hplan : plan w h = (mulU32 w 480 / h, 480) := by
          unfold plan
          rw [if_pos hne, if_neg hgt, ht]
        have hns : mulU32 w 480 / h ≤ 480 :=
          ns_le w h 480 (by omega) hwle
        have hmx : Nat.max (mulU32 w 480 / h) 480 = 480 := Nat.max_eq_right hns
        rw [hplan]
        exact plan_eq_id_of_inrange
          (by rw [hmx]; norm_num [MIN_DIMENSION])
          (by rw [hmx]; norm_num [MAX_DIMENSION])
    · have h1 : MIN_DIMENSION ≤ Nat.max w h := by
        simp only [MIN_DIMENSION]; omega
      have h2 : Nat.max w h ≤ MAX_DIMENSION := by
        simp only [MAX_DIMENSION]; omega
      rw [plan_eq_id_of_inrange h1 h2]
      exact plan_eq_id_of_inrange h1 h2

/-- Witness for C7 at `(1000, 500)`. -/
theorem plan_idempotent_witness :
    plan (plan 1000 500).1 (plan 1000 500).2 = plan 1000 500 :=
  plan_idempotent 1000 500 (by decide) (by decide) (by decide) (by decide)

/-- The single-quote character (code point 39). -/
def squote : Char := Char.ofNat 39

/-- The double-quote character (code point 34). -/
def dquote : Char := Char.ofNat 34

/-- Rust `str::trim`: removes leading and trailing whitespace.  (Rust uses
the Unicode White_Space property; this model uses the ASCII whitespace
predicate, which agrees on every ASCII string — all paths handled by the
claims are ASCII.) -/
def trimWs (s : List Char) : List Char :=
  ((s.dropWhile Char.isWhitespace).reverse.dropWhile Char.isWhitespace).reverse

/-- Rust `str::trim_matches(q)` for a single-char pattern: removes every
leading and every trailing occurrence of `q`, each end independently. -/
def trimMatches (q : Char) (s : List Char) : List Char :=
  ((s.dropWhile (fun c => c == q)).reverse.dropWhile (fun c => c == q)).reverse

/-- The path normalization used at all three submission sites
(main.rs lines 90, 105, 122):
`input.trim().trim_matches(squote).trim_matches(dquote)`. -/
def stripPath (s : List Char) : List Char :=
  trimMatches dquote (trimMatches squote (trimWs s))

/-- Extension literal `.png` (main.rs line 91). -/
def ext_png : List Char := ['.', 'p', 'n', 'g']

/-- Extension literal `.jpg` (main.rs line 91). -/
def ext_jpg : List Char := ['.', 'j', 'p', 'g']

/-- Extension literal `.jpeg` (main.rs line 91). -/
def ext_jpeg : List Char := ['.', 'j', 'p', 'e', 'g']

/-- Extension literal `.PNG` (main.rs line 92). -/
def ext_PNG : List Char := ['.', 'P', 'N', 'G']

/-- Extension literal `.JPG` (main.rs line 92). -/
def ext_JPG : List Char := ['.', 'J', 'P', 'G']

/-- Extension literal `.JPEG` (main.rs line 92). -/
def ext_JPEG : List Char := ['.', 'J', 'P', 'E', 'G']

/-- Extension literal `.gif` (main.rs line 93). -/
def ext_gif : List Char := ['.', 'g', 'i', 'f']

/-- Extension literal `.GIF` (main.rs line 93). -/
def ext_GIF : List Char := ['.', 'G', 'I', 'F']

/-- Extension literal `.webp` (main.rs line 93). -/
def ext_webp : List Char := ['.', 'w', 'e', 'b', 'p']

/-- The extension test of the quote-triggered auto-submit
(main.rs lines 91-93): the exact nine `ends_with` checks, or-ed in source
order.  Note the list is case-sensitive: `.WEBP` and mixed-case variants
are absent. -/
def hasImageExt (p : List Char) : Bool :=
  List.isSuffixOf ext_png p || List.isSuffixOf ext_jpg p ||
  List.isSuffixOf ext_jpeg p ||
  List.isSuffixOf ext_PNG p || List.isSuffixOf ext_JPG p ||
  List.isSuffixOf ext_JPEG p ||
  List.isSuffixOf ext_gif p || List.isSuffixOf ext_GIF p ||
  List.isSuffixOf ext_webp p

/-- Byte length of a string, as Rust `String::len` counts it (UTF-8). -/
def utf8Len (s : List Char) : Nat := (s.map Char.utf8Size).sum

/-- The raw terminal events the `run_app` loop dispatches on
(main.rs lines 69-135). -/
inductive Event where
  | keyEsc
  | keyCtrlC
  | keyCtrlD
  | keyChar (c : Char)
  | keyEnter
  | keyBackspace
  | keyOther
  | paste (data : List Char)
  | otherEvent
deriving DecidableEq

/-- Result of one iteration of the `run_app` loop: the accumulator
afterwards, the path handed to `process_image` (if any), and whether the
loop breaks. -/
structure StepResult where
  buffer : List Char
  submitted : Option (List Char)
  quit : Bool
deriving DecidableEq

/-- One iteration of the `run_app` event loop (main.rs lines 69-135),
acting on the `input_buffer` accumulator:

* Esc / Ctrl-C / Ctrl-D break the loop (lines 73-84);
* a character is pushed, and if it is a quote and the buffer's byte
  length exceeds 2, the stripped path is auto-submitted when its
  extension is recognized, after which the buffer is cleared
  (lines 85-102);
* Enter submits the stripped buffer when the buffer is non-empty and
  clears it (lines 103-112);
* Backspace pops the last character (lines 113-115);
* a paste submits the stripped pasted text when that is non-empty and
  leaves the buffer untouched (lines 119-131);
* anything else is ignored (lines 116, 132-135). -/
def step (buf : List Char) (e : Event) : StepResult :=
  match e with
  | Event.keyEsc => ⟨buf, none, true⟩
  | Event.keyCtrlC => ⟨buf, none, true⟩
  | Event.keyCtrlD => ⟨buf, none, true⟩
  | Event.keyChar c =>
      let buf2 := buf ++ [c]
      if (c == squote || c == dquote) && decide (2 < utf8Len buf2) then
        if hasImageExt (stripPath buf2) then
          ⟨[], some (stripPath buf2), false⟩
        else
          ⟨buf2, none, false⟩
      else
        ⟨buf2, none, false⟩
  | Event.keyEnter =>
      if buf.isEmpty then
        ⟨buf, none, false⟩
      else
        ⟨[], some (stripPath buf), false⟩
  | Event.keyBackspace => ⟨buf.dropLast, none, false⟩
  | Event.keyOther => ⟨buf, none, false⟩
  | Event.paste data =>
      if (stripPath data).isEmpty then
        ⟨buf, none, false⟩
      else
        ⟨buf, some (stripPath data), false⟩
  | Event.otherEvent => ⟨buf, none, false⟩

/-- The nine extension literals the code actually accepts, in source
order — the amended form of C3's extension condition. -/
def acceptedExts : List (List Char) :=
  [ext_png, ext_jpg, ext_jpeg, ext_PNG, ext_JPG, ext_JPEG,
   ext_gif, ext_GIF, ext_webp]

/-- The or-chain of the code equals membership-based search over the
literal list. -/
lemma hasImageExt_iff (p : List Char) :
    hasImageExt p = true ↔ ∃ e ∈ acceptedExts, List.isSuffixOf e p = true := by
  simp [hasImageExt, acceptedExts]
  tauto

/-- On a quote keypress with byte length above 2 the keyChar branch
reduces to the extension test. -/
lemma step_keyChar_eq (buf : List Char) (c : Char)
    (hcond : ((c == squote || c == dquote) &&
      decide (2 < utf8Len (buf ++ [c]))) = true) :
    step buf (Event.keyChar c) =
      if hasImageExt (stripPath (buf ++ [c])) then
        ⟨[], some (stripPath (buf ++ [c])), false⟩
      else ⟨buf ++ [c], none, false⟩ := by
  simp only [step]
  rw [if_pos hcond]

/-- Counterexample to C3 as stated: typing the closing quote of
`'a.WEBP'` gives a stripped value whose lowercase form ends in `.webp`,
so the claim demands a submission — but the code's case-sensitive list
has no `.WEBP`, so no submission is emitted. -/
theorem quote_autosubmit_cex :
    2 < utf8Len ([squote, 'a', '.', 'W', 'E', 'B', 'P'] ++ [squote]) ∧
    List.isSuffixOf ext_webp
        (List.map Char.toLower
          (stripPath ([squote, 'a', '.', 'W', 'E', 'B', 'P'] ++ [squote]))) =
      true ∧
    (step [squote, 'a', '.', 'W', 'E', 'B', 'P']
        (Event.keyChar squote)).submitted = none := by
  refine ⟨by decide, by decide, by decide⟩

/-- C3 amended: on a quote keypress with accumulator byte length above 2,
a submission of the stripped value is emitted iff that value ends in one
of the nine case-sensitive literals `.png .jpg .jpeg .PNG .JPG .JPEG
.gif .GIF .webp`; when none matches, the event only appends the
character. -/
theorem quote_autosubmit_iff (buf : List Char) (c : Char)
    (hq : c = squote ∨ c = dquote) (hlen : 2 < utf8Len (buf ++ [c])) :
    ((step buf (Event.keyChar c)).submitted = some (stripPath (buf ++ [c])) ↔
      ∃ e ∈ acceptedExts, List.isSuffixOf e (stripPath (buf ++ [c])) = true) ∧
    ((¬ ∃ e ∈ acceptedExts,
        List.isSuffixOf e (stripPath (buf ++ [c])) = true) →
      step buf (Event.keyChar c) = ⟨buf ++ [c], none, false⟩) := by
  have hcond : ((c == squote || c == dquote) &&
      decide (2 < utf8Len (buf ++ [c]))) = true := by
    simp only [Bool.and_eq_true, Bool.or_eq_true, beq_iff_eq,
      decide_eq_true_eq]
    exact ⟨hq, hlen⟩
  rw [step_keyChar_eq buf c hcond]
  by_cases hext : hasImageExt (stripPath (buf ++ [c])) = true
  · rw [if_pos hext]
    refine ⟨⟨fun _ => (hasImageExt_iff _).mp hext, fun _ => rfl⟩, ?_⟩
    intro hno
    exact absurd ((hasImageExt_iff _).mp hext) hno
  · rw [if_neg hext]
    refine ⟨⟨fun hsub => Option.noConfusion hsub, ?_⟩, fun _ => rfl⟩
    intro hex
    exact absurd ((hasImageExt_iff _).mpr hex) hext

/-- Witness for the amended C3: the closing quote of `'a.png'` submits. -/
theorem quote_autosubmit_iff_witness :
    (step [squote, 'a', '.', 'p', 'n', 'g'] (Event.keyChar squote)).submitted =
      some (stripPath ([squote, 'a', '.', 'p', 'n', 'g'] ++ [squote])) :=
  ((quote_autosubmit_iff [squote, 'a', '.', 'p', 'n', 'g'] squote (Or.inl rfl)
    (by decide)).1).mpr (by decide)

/-- Normalization exactly as C4 words it: whitespace trim, then at most
one layer of matching leading/trailing quote characters removed (only a
matched pair of the same quote character, and only the outermost layer). -/
def specOneLayerStrip (s : List Char) : List Char :=
  if 2 ≤ (trimWs s).length ∧ (trimWs s).head? = (trimWs s).getLast? ∧
      ((trimWs s).head? = some squote ∨ (trimWs s).head? = some dquote) then
    ((trimWs s).drop 1).dropLast
  else trimWs s

/-- The raw text a submission is built from: the buffer including the
just-typed character for the quote auto-submit, the pasted text for a
paste, the buffer itself otherwise. -/
def rawText (buf : List Char) : Event → List Char
  | Event.keyChar c => buf ++ [c]
  | Event.paste d => d
  | _ => buf

/-- Counterexample to C4 as stated: submitting `''x.png''` with the
confirmation key strips BOTH layers of quotes (Rust `trim_matches`
removes all matching ends repeatedly), not just the outer one. -/
theorem submit_strip_cex :
    (step [squote, squote, 'x', '.', 'p', 'n', 'g', squote, squote]
        Event.keyEnter).submitted ≠
      some (specOneLayerStrip
        [squote, squote, 'x', '.', 'p', 'n', 'g', squote, squote]) := by
  decide

/-- C4 amended: every submitted path (quote auto-submit, confirmation
key, or paste) equals the raw text with whitespace trimmed, then ALL
leading and trailing single quotes removed, then ALL leading and
trailing double quotes removed — each end independently, so unmatched
and doubled quotes are stripped too. -/
theorem submit_strip (buf : List Char) (e : Event) (p : List Char)
    (hs : (step buf e).submitted = some p) : p = stripPath (rawText buf e) := by
  cases e with
  | keyEsc => simp [step] at hs
  | keyCtrlC => simp [step] at hs
  | keyCtrlD => simp [step] at hs
  | keyChar c =>
      simp only [step] at hs
      by_cases hcond : ((c == squote || c == dquote) &&
          decide (2 < utf8Len (buf ++ [c]))) = true
      · rw [if_pos hcond] at hs
        by_cases hext : hasImageExt (stripPath (buf ++ [c])) = true
        · rw [if_pos hext] at hs
          simp only [rawText]
          exact (Option.some.inj hs).symm
        · rw [if_neg hext] at hs
          exact absurd hs (by simp)
      · rw [if_neg hcond] at hs
        exact absurd hs (by simp)
  | keyEnter =>
      simp only [step] at hs
      by_cases hemp : buf.isEmpty = true
      · rw [if_pos hemp] at hs
        exact absurd hs (by simp)
      · rw [if_neg hemp] at hs
        simp only [rawText]
        exact (Option.some.inj hs).symm
  | keyBackspace => simp [step] at hs
  | keyOther => simp [step] at hs
  | paste d =>
      simp only [step] at hs
      by_cases hemp : (stripPath d).isEmpty = true
      · rw [if_pos hemp] at hs
        exact absurd hs (by simp)
      · rw [if_neg hemp] at hs
        simp only [rawText]
        exact (Option.some.inj hs).symm
  | otherEvent => simp [step] at hs

/-- Witness for the amended C4: an Enter submission of `'a.txt'` (note:
the confirmation key has no extension filter). -/
theorem submit_strip_witness :
    (['a', '.', 't', 'x', 't'] : List Char) =
      stripPath (rawText [squote, 'a', '.', 't', 'x', 't', squote]
        Event.keyEnter) :=
  submit_strip [squote, 'a', '.', 't', 'x', 't', squote] Event.keyEnter
    ['a', '.', 't', 'x', 't'] (by decide)

/-- Counterexample to C8 as stated: pasting `''` (text that strips to
empty) produces NO submission — the code guards on `!path.is_empty()`. -/
theorem paste_submit_cex :
    (step [] (Event.paste [squote, squote])).submitted = none := by decide

/-- C8 amended: a paste event never touches the accumulator and never
quits; it submits the stripped pasted text exactly when that text is
non-empty after stripping (no extension filter), and is ignored
otherwise. -/
theorem paste_submit (buf data : List Char) :
    (step buf (Event.paste data)).buffer = buf ∧
    (step buf (Event.paste data)).quit = false ∧
    (step buf (Event.paste data)).submitted =
      (if (stripPath data).isEmpty then none else some (stripPath data)) := by
  simp only [step]
  by_cases hemp : (stripPath data).isEmpty = true
  · rw [if_pos hemp, if_pos hemp]
    exact ⟨rfl, rfl, rfl⟩
  · rw [if_neg hemp, if_neg hemp]
    exact ⟨rfl, rfl, rfl⟩

/-- Counterexample to C9 as stated: with `a` in the accumulator, pasting
`x.png` submits a path but leaves the accumulator holding `a` — the
paste branch never clears `input_buffer`. -/
theorem clear_after_submit_cex :
    (step ['a'] (Event.paste ['x', '.', 'p', 'n', 'g'])).submitted =
        some ['x', '.', 'p', 'n', 'g'] ∧
      (step ['a'] (Event.paste ['x', '.', 'p', 'n', 'g'])).buffer ≠ [] := by
  refine ⟨by decide, by decide⟩

/-- C9 amended: after a quote-auto-submit or a confirmation-key
submission the accumulator is cleared, but a paste submission leaves the
accumulator exactly as it was. -/
theorem clear_after_submit (buf d : List Char) (c : Char) :
    ((step buf (Event.keyChar c)).submitted.isSome = true →
      (step buf (Event.keyChar c)).buffer = []) ∧
    ((step buf Event.keyEnter).submitted.isSome = true →
      (step buf Event.keyEnter).buffer = []) ∧
    (step buf (Event.paste d)).buffer = buf := by
  refine ⟨?_, ?_, ?_⟩
  · intro hsub
    simp only [step] at hsub ⊢
    by_cases hcond : ((c == squote || c == dquote) &&
        decide (2 < utf8Len (buf ++ [c]))) = true
    · rw [if_pos hcond] at hsub ⊢
      by_cases hext : hasImageExt (stripPath (buf ++ [c])) = true
      · rw [if_pos hext]
      · rw [if_neg hext] at hsub
        simp at hsub
    · rw [if_neg hcond] at hsub
      simp at hsub
  · intro hsub
    simp only [step] at hsub ⊢
    by_cases hemp : buf.isEmpty = true
    · rw [if_pos hemp] at hsub
      simp at hsub
    · rw [if_neg hemp]
  · simp only [step]
    by_cases hemp : (stripPath d).isEmpty = true
    · rw [if_pos hemp]
    · rw [if_neg hemp]

/-- Witness for the amended C9: the auto-submit of `'a.png'` clears the
accumulator. -/
theorem clear_after_submit_witness :
    (step [squote, 'a', '.', 'p', 'n', 'g'] (Event.keyChar squote)).buffer =
      [] :=
  (clear_after_submit [squote, 'a', '.', 'p', 'n', 'g'] ['x'] squote).1
    (by decide)

/-- Outcomes `process_image` can report inline (main.rs lines 228-254,
303-313, 327-337). -/
inductive ProcOutcome where
  | fileNotFound
  | decodeFailed
  | saveFailed
  | copiedToClipboard
deriving DecidableEq

/-- Error-handling skeleton of `process_image` (main.rs lines 210-339).
The filesystem and codec outcomes are abstracted to the booleans the
branches test; terminal writes (out of scope per spec section 1) are
modelled as infallible.  The Rust `Result` return is the `Except`: the
early returns for a missing file (lines 228-238), an undecodable file
(lines 241-254) and a failed temp-file save (lines 303-313) all produce
`Ok(())`, i.e. `Except.ok`. -/
def process_image (fileExists decodeOk saveOk : Bool) :
    Except String ProcOutcome :=
  if !fileExists then Except.ok ProcOutcome.fileNotFound
  else if !decodeOk then Except.ok ProcOutcome.decodeFailed
  else if !saveOk then Except.ok ProcOutcome.saveFailed
  else Except.ok ProcOutcome.copiedToClipboard

/-- The `run_app` loop propagates an error from `process_image` with `?`
(main.rs lines 95, 106, 125) and would exit; it keeps looping exactly on
`Except.ok`. -/
def loopContinues (r : Except String ProcOutcome) : Bool :=
  match r with
  | Except.ok _ => true
  | Except.error _ => false

/-- C10: a missing file and a decode failure are both reported inline as
`Except.ok` outcomes — no error value propagates out of `process_image`,
so the event loop keeps running. -/
theorem process_image_nonfatal (decodeOk saveOk : Bool) :
    process_image false decodeOk saveOk =
        Except.ok ProcOutcome.fileNotFound ∧
      loopContinues (process_image false decodeOk saveOk) = true ∧
      process_image true false saveOk =
        Except.ok ProcOutcome.decodeFailed ∧
      loopContinues (process_image true false saveOk) = true :=
  ⟨rfl, rfl, rfl, rfl⟩

end Imgopt
